import Mathlib

/-!
Verification development for the dice-notation parser and evaluator of the
`mcp-server-dice` repository (class `DiceParser` in `src/index.ts`).

The parser is embedded shallowly: the cursor into the normalized input is
represented by the remaining list of characters, thrown JavaScript errors
become `Except.error`, and each call to `Math.floor(Math.random() * sides) + 1`
is modelled as `rng k % sides + 1` for an arbitrary value stream
`rng : Nat → Nat` threaded by an index — this produces exactly the values in
`[1, sides]` the source can produce, universally quantified over the stream.
JavaScript truthiness on the optional numeric modifier fields (`0` and `null`
are both falsy) is modelled explicitly by `truthyOptN`.
-/

namespace DiceParser

/-- Stream of raw random values standing for successive `Math.random()` draws. -/
abbrev Rng := Nat → Nat

/-- Constant `MAX_NUMBER` from the source. -/
def MAX_NUMBER : Nat := 1000000

/-- Constant `MAX_DICE_COUNT` from the source. -/
def MAX_DICE_COUNT : Nat := 1000

/-- Constant `MAX_DICE_SIDES` from the source. -/
def MAX_DICE_SIDES : Nat := 10000

/-- Interface `DiceModifiers` from the source; `Option Nat` models
`number | undefined` fields. -/
structure DiceModifiers where
  keep : Option Nat := none
  drop : Option Nat := none
  explode : Bool := false
  explodeOn : Option Nat := none
  reroll : Option Nat := none
deriving DecidableEq, Repr

/-- Interface `DiceResult` from the source. -/
structure DiceResult where
  total : Int
  rolls : List Int
  expression : String
  breakdown : String
deriving DecidableEq, Repr

/-- JavaScript truthiness of an optional number: `null`/`undefined` and `0`
are falsy. -/
def truthyOptN : Option Nat → Bool
  | none => false
  | some n => n != 0

/-- Value of a decimal digit string, as `parseInt` computes it on the
all-digit slices the source feeds it. -/
def natOfDigits (ds : List Char) : Nat :=
  ds.foldl (fun a c => a * 10 + (c.toNat - 48)) 0

/-- Method `parseNumber`: consume leading digits; `none` when there are no
digits (the source returns `null` and leaves the cursor); error when the
value exceeds `MAX_NUMBER`. -/
def parseNumber (cs : List Char) : Except String (Option Nat × List Char) :=
  let ds := cs.takeWhile Char.isDigit
  if ds.isEmpty then .ok (none, cs)
  else
    let num := natOfDigits ds
    if num > MAX_NUMBER then .error "Number too large (max 1,000,000)"
    else .ok (some num, cs.dropWhile Char.isDigit)

theorem parseNumber_rest_length {cs : List Char} {n : Option Nat} {rest : List Char}
    (h : parseNumber cs = .ok (n, rest)) : rest.length ≤ cs.length := by
  unfold parseNumber at h
  by_cases hd : (cs.takeWhile Char.isDigit).isEmpty
  · simp [hd] at h
    exact h.2 ▸ le_refl _
  · by_cases hn : natOfDigits (cs.takeWhile Char.isDigit) > MAX_NUMBER
    · simp [hd, hn] at h
    · simp [hd, hn] at h
      exact h.2 ▸ (List.dropWhile_sublist _).length_le

/-- The loop body of `parseModifiers`, structurally recursive on a fuel that
bounds the number of iterations; every iteration consumes at least one
character, so with fuel at least the length of the input the base case is
reached only on the empty remainder, where it coincides with the loop exit. -/
def parseModifiersF : Nat → List Char → DiceModifiers →
    Except String (DiceModifiers × List Char)
  | 0, cs, mods => .ok (mods, cs)
  | fuel + 1, cs, mods =>
    match cs with
    | 'k' :: rest =>
      (match parseNumber rest with
       | .error e => .error e
       | .ok (n, rest2) =>
         if truthyOptN n then parseModifiersF fuel rest2 { mods with keep := n }
         else .error "Missing number after 'k'")
    | 'd' :: rest =>
      if (rest.head?.map Char.isDigit).getD false then
        match parseNumber rest with
        | .error e => .error e
        | .ok (n, rest2) =>
          if truthyOptN n then parseModifiersF fuel rest2 { mods with drop := n }
          else .error "Missing number after 'd'"
      else .ok (mods, 'd' :: rest)
    | '!' :: rest =>
      if (rest.head?.map Char.isDigit).getD false then
        match parseNumber rest with
        | .error e => .error e
        | .ok (n, rest2) =>
          parseModifiersF fuel rest2 { mods with explode := true, explodeOn := n }
      else parseModifiersF fuel rest { mods with explode := true }
    | 'e' :: rest =>
      if (rest.head?.map Char.isDigit).getD false then
        match parseNumber rest with
        | .error e => .error e
        | .ok (n, rest2) =>
          parseModifiersF fuel rest2 { mods with explode := true, explodeOn := n }
      else parseModifiersF fuel rest { mods with explode := true }
    | 'r' :: rest =>
      (match parseNumber rest with
       | .error e => .error e
       | .ok (n, rest2) =>
         if truthyOptN n then parseModifiersF fuel rest2 { mods with reroll := n }
         else .error "Missing number after 'r'")
    | _ => .ok (mods, cs)

/-- Method `parseModifiers`: loop over `k`/`d`/`!`/`e`/`r` suffixes,
accumulating into the modifier record; a `d` is a drop modifier only when
immediately followed by a digit; `k`, `d`, `r` demand a truthy number. -/
def parseModifiers (cs : List Char) (mods : DiceModifiers) :
    Except String (DiceModifiers × List Char) :=
  parseModifiersF cs.length cs mods

/-- One raw die roll: `Math.floor(Math.random() * sides) + 1`, i.e. an
arbitrary value in `[1, sides]` drawn from the stream. -/
def randFace (rng : Rng) (i : Nat) (sides : Nat) : Nat :=
  rng i % sides + 1

/-- The exploding-dice `while` loop: keep rolling while the most recent face
meets the threshold and fewer than `fuel` (initially 100) explosions have
occurred; returns the extra faces in order and the next stream index. -/
def explodeLoop (rng : Rng) (sides threshold : Nat) : Nat → Nat → Nat → List Nat × Nat
  | _, 0, idx => ([], idx)
  | roll, fuel + 1, idx =>
    if threshold ≤ roll then
      let r := randFace rng idx sides
      let rest := explodeLoop rng sides threshold r fuel (idx + 1)
      (r :: rest.1, rest.2)
    else ([], idx)

/-- The effective explosion threshold `options.explodeOn || sides`
(`0` and `undefined` both fall back to `sides`). -/
def explodeThresholdOf (mods : DiceModifiers) (sides : Nat) : Nat :=
  match mods.explodeOn with
  | some t => if t = 0 then sides else t
  | none => sides

/-- One iteration of the per-die loop body in `rollDice`: initial roll,
explosion resolution, then the single reroll (whose fresh face replaces the
die's accumulated value but is not pushed onto the flat roll list).
Returns (per-die total, faces pushed to `allRolls`, next stream index). -/
def rollOneDie (rng : Rng) (sides : Nat) (mods : DiceModifiers) (idx : Nat) :
    Nat × List Nat × Nat :=
  let r0 := randFace rng idx sides
  let ex :=
    if mods.explode then
      explodeLoop rng sides (explodeThresholdOf mods sides) r0 100 (idx + 1)
    else ([], idx + 1)
  let extras := ex.1
  let idx2 := ex.2
  let tot := r0 + extras.sum
  match mods.reroll with
  | some rr =>
    if rr ≠ 0 ∧ tot ≤ rr then (randFace rng idx2 sides, r0 :: extras, idx2 + 1)
    else (tot, r0 :: extras, idx2)
  | none => (tot, r0 :: extras, idx2)

/-- The per-die loop of `rollDice` over `count` dice: returns the per-die
totals (`rolls` in the source), the flat face list (`allRolls`), and the
next stream index. -/
def rollAllDice (rng : Rng) (sides : Nat) (mods : DiceModifiers) : Nat → Nat → List Nat × List Nat × Nat
  | 0, idx => ([], [], idx)
  | n + 1, idx =>
    let d := rollOneDie rng sides mods idx
    let rest := rollAllDice rng sides mods n d.2.2
    (d.1 :: rest.1, d.2.1 ++ rest.2.1, rest.2.2)

/-- Descending sort used for `keep` (`finalRolls.sort((a, b) => b - a)`). -/
def sortDescNat (l : List Nat) : List Nat :=
  List.insertionSort (fun a b => b ≤ a) l

/-- Ascending sort used for `drop` (`finalRolls.sort((a, b) => a - b)`). -/
def sortAscNat (l : List Nat) : List Nat :=
  List.insertionSort (fun a b => a ≤ b) l

/-- The keep/drop stage of `rollDice`: keep takes precedence (checked first),
drop applies only when keep is falsy, and falsy values (0/absent) disable
the stage. -/
def applyKeepDrop (mods : DiceModifiers) (perDie : List Nat) : List Nat :=
  if truthyOptN mods.keep then (sortDescNat perDie).take (mods.keep.getD 0)
  else if truthyOptN mods.drop then (sortAscNat perDie).drop (mods.drop.getD 0)
  else perDie

/-- Canonical expression string rendered by `rollDice`. -/
def mkDiceExpr (count sides : Nat) (mods : DiceModifiers) (negative : Bool) : String :=
  let e := toString count ++ "d" ++ toString sides
  let e := if truthyOptN mods.keep then e ++ "k" ++ toString (mods.keep.getD 0) else e
  let e := if truthyOptN mods.drop then e ++ "d" ++ toString (mods.drop.getD 0) else e
  let e :=
    if mods.explode then
      if truthyOptN mods.explodeOn then e ++ "e" ++ toString (mods.explodeOn.getD 0) else e ++ "!"
    else e
  let e := if truthyOptN mods.reroll then e ++ "r" ++ toString (mods.reroll.getD 0) else e
  if negative then "-" ++ e else e

/-- Method `buildBreakdown`: bracketed per-die totals, an arrow plus the kept
values when keep/drop applied, then `= sum` with the unnegated sum. -/
def buildBreakdown (originalRolls finalRolls : List Nat) (mods : DiceModifiers) : String :=
  let b := "[" ++ String.intercalate ", " (originalRolls.map toString) ++ "]"
  let b :=
    if truthyOptN mods.keep || truthyOptN mods.drop then
      b ++ " → [" ++ String.intercalate ", " (finalRolls.map toString) ++ "]"
    else b
  b ++ " = " ++ toString finalRolls.sum

/-- Method `rollDice`: bounds checks, per-die rolling with modifiers,
keep/drop, sign, and rendering. Returns the result and next stream index. -/
def rollDice (rng : Rng) (count sides : Nat) (mods : DiceModifiers) (negative : Bool)
    (idx : Nat) : Except String (DiceResult × Nat) :=
  if count = 0 ∨ count > MAX_DICE_COUNT then
    .error "Dice count must be between 1 and 1000"
  else if sides = 0 ∨ sides > MAX_DICE_SIDES then
    .error "Dice sides must be between 1 and 10000"
  else if count * sides > MAX_NUMBER then
    .error "Total possible outcomes too large"
  else
    let rolled := rollAllDice rng sides mods count idx
    let perDie := rolled.1
    let allRolls := rolled.2.1
    let finalRolls := applyKeepDrop mods perDie
    .ok ({ total := (finalRolls.sum : Int) * (if negative then -1 else 1),
           rolls := allRolls.map (Nat.cast : Nat → Int),
           expression := mkDiceExpr count sides mods negative,
           breakdown := buildBreakdown perDie finalRolls mods }, rolled.2.2)

/-- One Fudge die: `Math.floor(Math.random() * 3) - 1`, a value in
`{-1, 0, 1}`. -/
def fudgeFace (rng : Rng) (i : Nat) : Int :=
  (rng i % 3 : Nat) - 1

/-- Method `rollFudgeDice`. -/
def rollFudgeDice (rng : Rng) (count : Nat) (negative : Bool) (idx : Nat) :
    Except String (DiceResult × Nat) :=
  if count = 0 ∨ count > MAX_DICE_COUNT then
    .error "Dice count must be between 1 and 1000"
  else
    let rolls := (List.range count).map (fun i => fudgeFace rng (idx + i))
    let total := rolls.sum * (if negative then -1 else 1)
    let syms := rolls.map (fun r => if r = -1 then "[-]" else if r = 0 then "[ ]" else "[+]")
    .ok ({ total := total,
           rolls := rolls,
           expression := (if negative then "-" else "") ++ toString count ++ "dF",
           breakdown := String.intercalate " " syms ++ " = " ++ toString total }, idx + count)

/-- Method `combineResults` for `+` and `-`. -/
def combineResults (left right : DiceResult) (op : Char) : DiceResult :=
  let total := if op = '+' then left.total + right.total else left.total - right.total
  { total := total,
    rolls := left.rolls ++ right.rolls,
    expression := left.expression ++ " " ++ String.singleton op ++ " " ++ right.expression,
    breakdown := left.breakdown ++ " " ++ String.singleton op ++ " " ++ right.breakdown
      ++ " = " ++ toString total }

/-- Method `multiplyResults`. -/
def multiplyResults (left right : DiceResult) : DiceResult :=
  { total := left.total * right.total,
    rolls := left.rolls ++ right.rolls,
    expression := left.expression ++ " × " ++ right.expression,
    breakdown := "(" ++ left.breakdown ++ ") × (" ++ right.breakdown ++ ") = "
      ++ toString (left.total * right.total) }

/-- The `count || 1` fallback: an absent or zero count becomes 1. -/
def countOr1 : Option Nat → Nat
  | none => 1
  | some 0 => 1
  | some n => n

/-- Body of `parseDiceOrNumber` after the sign has been consumed into the
`negative` flag: optional count, then either a dice suffix (`d%`, `df`, or
`d` sides with modifiers) or a bare numeric literal. -/
def parseDiceOrNumberCore (rng : Rng) (negative : Bool) (cs1 : List Char) (idx : Nat) :
    Except String (DiceResult × List Char × Nat) :=
  match parseNumber cs1 with
  | .error e => .error e
  | .ok (count, cs2) =>
    if cs2.head? = some 'd' then
      if cs2.tail.head? = some '%' then
        match rollDice rng (countOr1 count) 100 {} negative idx with
        | .error e => .error e
        | .ok (r, idx2) => .ok (r, cs2.tail.tail, idx2)
      else if cs2.tail.head? = some 'f' then
        match rollFudgeDice rng (countOr1 count) negative idx with
        | .error e => .error e
        | .ok (r, idx2) => .ok (r, cs2.tail.tail, idx2)
      else
        match parseNumber cs2.tail with
        | .error e => .error e
        | .ok (sidesOpt, cs4) =>
          if truthyOptN sidesOpt then
            match parseModifiers cs4 {} with
            | .error e => .error e
            | .ok (mods, cs5) =>
              match rollDice rng (countOr1 count) (sidesOpt.getD 0) mods negative idx with
              | .error e => .error e
              | .ok (r, idx2) => .ok (r, cs5, idx2)
          else .error "Missing number of sides after 'd'"
    else
      match count with
      | none => .error "Expected number or dice notation"
      | some n =>
        .ok ({ total := if negative then -(n : Int) else (n : Int),
               rolls := [],
               expression := (if negative then "-" else "") ++ toString n,
               breakdown := (if negative then "-" else "") ++ toString n }, cs2, idx)

/-- Method `parseDiceOrNumber`: a leading `-` sets the `negative` flag and is
otherwise handled entirely by the core after the sign. -/
def parseDiceOrNumber (rng : Rng) (cs : List Char) (idx : Nat) :
    Except String (DiceResult × List Char × Nat) :=
  match cs with
  | '-' :: rest => parseDiceOrNumberCore rng true rest idx
  | _ => parseDiceOrNumberCore rng false cs idx

/-- Selector for the mutually recursive grammar procedures of the source
(`parseExpression`, its operator loop, `parseTerm`, its operator loop, and
`parseFactor`), merged into one fueled function so that the recursion is
structural. -/
inductive ParseFrame where
  | expr : ParseFrame
  | exprLoop : DiceResult → ParseFrame
  | term : ParseFrame
  | termLoop : DiceResult → ParseFrame
  | factor : ParseFrame

/-- The mutual recursion of `parseExpression`/`parseTerm`/`parseFactor`,
structurally recursive on fuel; each selector case is the body of the
corresponding source method. -/
def parseRun (rng : Rng) : Nat → ParseFrame → List Char → Nat →
    Except String (DiceResult × List Char × Nat)
  | 0, _, _, _ => .error "out of fuel"
  | fuel + 1, frame, cs, idx =>
    match frame with
    | .expr =>
      (match parseRun rng fuel .term cs idx with
       | .error e => .error e
       | .ok (left, cs1, idx1) => parseRun rng fuel (.exprLoop left) cs1 idx1)
    | .exprLoop left =>
      (match cs with
       | '+' :: rest =>
         (match parseRun rng fuel .term rest idx with
          | .error e => .error e
          | .ok (right, cs1, idx1) =>
            parseRun rng fuel (.exprLoop (combineResults left right '+')) cs1 idx1)
       | '-' :: rest =>
         (match parseRun rng fuel .term rest idx with
          | .error e => .error e
          | .ok (right, cs1, idx1) =>
            parseRun rng fuel (.exprLoop (combineResults left right '-')) cs1 idx1)
       | _ => .ok (left, cs, idx))
    | .term =>
      (match parseRun rng fuel .factor cs idx with
       | .error e => .error e
       | .ok (left, cs1, idx1) => parseRun rng fuel (.termLoop left) cs1 idx1)
    | .termLoop left =>
      (match cs with
       | c :: rest =>
         if c = '*' ∨ c = '×' ∨ c = '·' then
           match parseRun rng fuel .factor rest idx with
           | .error e => .error e
           | .ok (right, cs1, idx1) =>
             parseRun rng fuel (.termLoop (multiplyResults left right)) cs1 idx1
         else .ok (left, c :: rest, idx)
       | [] => .ok (left, [], idx))
    | .factor =>
      (match cs with
       | '(' :: rest =>
         (match parseRun rng fuel .expr rest idx with
          | .error e => .error e
          | .ok (r, cs1, idx1) =>
            match cs1 with
            | ')' :: cs2 => .ok (r, cs2, idx1)
            | _ => .error "Missing closing parenthesis")
       | _ => parseDiceOrNumber rng cs idx)

/-- Method `parseExpression`: a term followed by `+`/`-` chains, fueled. -/
def parseExpression (rng : Rng) (fuel : Nat) (cs : List Char) (idx : Nat) :
    Except String (DiceResult × List Char × Nat) :=
  parseRun rng fuel .expr cs idx

/-- The `+`/`-` loop inside `parseExpression`. -/
def parseExprLoop (rng : Rng) (fuel : Nat) (left : DiceResult) (cs : List Char) (idx : Nat) :
    Except String (DiceResult × List Char × Nat) :=
  parseRun rng fuel (.exprLoop left) cs idx

/-- Method `parseTerm`: a factor followed by multiplication chains. -/
def parseTerm (rng : Rng) (fuel : Nat) (cs : List Char) (idx : Nat) :
    Except String (DiceResult × List Char × Nat) :=
  parseRun rng fuel .term cs idx

/-- The `*`/`×`/`·` loop inside `parseTerm`. -/
def parseTermLoop (rng : Rng) (fuel : Nat) (left : DiceResult) (cs : List Char) (idx : Nat) :
    Except String (DiceResult × List Char × Nat) :=
  parseRun rng fuel (.termLoop left) cs idx

/-- Method `parseFactor`: parenthesized subexpression or `parseDiceOrNumber`. -/
def parseFactor (rng : Rng) (fuel : Nat) (cs : List Char) (idx : Nat) :
    Except String (DiceResult × List Char × Nat) :=
  parseRun rng fuel .factor cs idx

/-- The normalization in `parse`: lowercase and strip all whitespace before
tokenization. -/
def normalize (s : String) : List Char :=
  (s.data.map Char.toLower).filter (fun c => !c.isWhitespace)

/-- Fuel that is never exhausted on inputs the source terminates on: the
descent expression→term→factor uses three units before a character is
consumed, and every further unit of recursion consumes a character first. -/
def parseFuel (cs : List Char) : Nat := 3 * cs.length + 3

/-- Method `parse`: normalize, run `parseExpression` from the start, demand
that the whole input was consumed, and brand every failure message with
`Parse error: `. -/
def parse (s : String) (rng : Rng) : Except String DiceResult :=
  match parseExpression rng (parseFuel (normalize s)) (normalize s) 0 with
  | .error e => .error ("Parse error: " ++ e)
  | .ok (r, rest, _) =>
    match rest with
    | [] => .ok r
    | c :: _ =>
      .error ("Parse error: Unexpected character: '" ++ String.singleton c ++ "'")

theorem digit_toNat_bounds {c : Char} (h : c.isDigit = true) :
    48 ≤ c.toNat ∧ c.toNat ≤ 57 := by
  simp only [Char.isDigit, Bool.and_eq_true, decide_eq_true_eq] at h
  obtain ⟨h1, h2⟩ := h
  exact ⟨h1, h2⟩

theorem toLower_of_isDigit {c : Char} (h : c.isDigit = true) : c.toLower = c := by
  have hb := digit_toNat_bounds h
  unfold Char.toLower
  rw [if_neg]
  intro hc
  omega

theorem not_ws_of_isDigit {c : Char} (h : c.isDigit = true) : c.isWhitespace = false := by
  have hb := digit_toNat_bounds h
  simp only [Char.isWhitespace, Bool.or_eq_false_iff, decide_eq_false_iff_not]
  refine ⟨⟨⟨?_, ?_⟩, ?_⟩, ?_⟩ <;> intro hc <;> subst hc <;> revert hb <;> decide

theorem ne_of_isDigit {c : Char} (d : Char) (h : c.isDigit = true)
    (hd : d.isDigit = false) : c ≠ d := by
  intro hc
  subst hc
  rw [h] at hd
  cases hd

theorem normalize_mk_eq_self {l : List Char}
    (h : ∀ c ∈ l, c.toLower = c ∧ c.isWhitespace = false) :
    normalize (String.mk l) = l := by
  unfold normalize
  show (l.map Char.toLower).filter (fun c => !c.isWhitespace) = l
  rw [List.map_congr_left (fun c hc => (h c hc).1), List.map_id']
  rw [List.filter_eq_self.mpr]
  intro c hc
  rw [(h c hc).2]
  rfl

theorem takeWhile_digits_append {ds rest : List Char}
    (hds : ∀ c ∈ ds, c.isDigit = true)
    (hrest : ∀ c, rest.head? = some c → c.isDigit = false) :
    (ds ++ rest).takeWhile Char.isDigit = ds ∧
      (ds ++ rest).dropWhile Char.isDigit = rest := by
  induction ds with
  | nil =>
    cases rest with
    | nil => simp
    | cons r t =>
      have hr := hrest r rfl
      simp [List.takeWhile_cons, List.dropWhile_cons, hr]
  | cons d t ih =>
    have hd := hds d (by simp)
    have ⟨iht, ihd⟩ := ih (fun c hc => hds c (by simp [hc]))
    simp only [List.cons_append, List.takeWhile_cons, List.dropWhile_cons, hd]
    simp [iht, ihd]

theorem parseNumber_digits {ds rest : List Char} (hne : ds ≠ [])
    (hds : ∀ c ∈ ds, c.isDigit = true)
    (hrest : ∀ c, rest.head? = some c → c.isDigit = false)
    (hval : natOfDigits ds ≤ MAX_NUMBER) :
    parseNumber (ds ++ rest) = .ok (some (natOfDigits ds), rest) := by
  obtain ⟨ht, hdw⟩ := takeWhile_digits_append hds hrest
  unfold parseNumber
  rw [ht, hdw]
  simp [hne, Nat.not_lt.mpr hval]

theorem parseNumber_none {cs : List Char}
    (h : ∀ c, cs.head? = some c → c.isDigit = false) :
    parseNumber cs = .ok (none, cs) := by
  have := @takeWhile_digits_append [] cs (by simp) h
  unfold parseNumber
  rw [List.nil_append] at this
  rw [this.1]
  rfl

theorem randFace_bounds (rng : Rng) (i : Nat) {sides : Nat} (hs : 0 < sides) :
    1 ≤ randFace rng i sides ∧ randFace rng i sides ≤ sides := by
  unfold randFace
  exact ⟨Nat.le_add_left 1 _, Nat.succ_le_of_lt (Nat.mod_lt _ hs)⟩

theorem explodeLoop_length_le (rng : Rng) (sides threshold : Nat) :
    ∀ fuel roll idx, ((explodeLoop rng sides threshold roll fuel idx).1).length ≤ fuel := by
  intro fuel
  induction fuel with
  | zero => intro roll idx; simp [explodeLoop]
  | succ f ih =>
    intro roll idx
    unfold explodeLoop
    split
    · simpa using Nat.succ_le_succ (ih _ _)
    · simp

theorem explodeLoop_faces_bounds (rng : Rng) {sides : Nat} (threshold : Nat)
    (hs : 0 < sides) :
    ∀ fuel roll idx, ∀ v ∈ (explodeLoop rng sides threshold roll fuel idx).1,
      1 ≤ v ∧ v ≤ sides := by
  intro fuel
  induction fuel with
  | zero => intro roll idx v hv; simp [explodeLoop] at hv
  | succ f ih =>
    intro roll idx v hv
    unfold explodeLoop at hv
    split at hv
    · rcases List.mem_cons.mp hv with rfl | hv'
      · exact randFace_bounds rng idx hs
      · exact ih _ _ v hv'
    · simp at hv

theorem rollOneDie_faces_eq (rng : Rng) (sides : Nat) (mods : DiceModifiers) (idx : Nat) :
    (rollOneDie rng sides mods idx).2.1 =
      randFace rng idx sides ::
        (if mods.explode then
           (explodeLoop rng sides (explodeThresholdOf mods sides)
             (randFace rng idx sides) 100 (idx + 1)).1
         else []) := by
  cases he : mods.explode <;>
  · unfold rollOneDie
    rcases hr : mods.reroll with _ | rr <;> simp [he, hr] <;>
      first
        | rfl
        | (split <;> rfl)

theorem rollOneDie_faces_length (rng : Rng) (sides : Nat) (mods : DiceModifiers) (idx : Nat) :
    ((rollOneDie rng sides mods idx).2.1).length ≤ 101 := by
  rw [rollOneDie_faces_eq]
  simp only [List.length_cons]
  have : (if mods.explode then
      (explodeLoop rng sides (explodeThresholdOf mods sides)
        (randFace rng idx sides) 100 (idx + 1)).1
    else []).length ≤ 100 := by
    split
    · exact explodeLoop_length_le rng sides _ 100 _ _
    · simp
  omega

theorem rollOneDie_faces_bounds (rng : Rng) {sides : Nat} (mods : DiceModifiers)
    (idx : Nat) (hs : 0 < sides) :
    ∀ v ∈ (rollOneDie rng sides mods idx).2.1, 1 ≤ v ∧ v ≤ sides := by
  intro v hv
  rw [rollOneDie_faces_eq] at hv
  rcases List.mem_cons.mp hv with rfl | hv'
  · exact randFace_bounds rng idx hs
  · split at hv'
    · exact explodeLoop_faces_bounds rng _ hs 100 _ _ v hv'
    · simp at hv'

theorem rollOneDie_plain {mods : DiceModifiers} (he : mods.explode = false)
    (hr : mods.reroll = none) (rng : Rng) (sides idx : Nat) :
    rollOneDie rng sides mods idx =
      (randFace rng idx sides, [randFace rng idx sides], idx + 1) := by
  unfold rollOneDie
  rw [he, hr]
  simp

theorem rollAllDice_perDie_length (rng : Rng) (sides : Nat) (mods : DiceModifiers) :
    ∀ count idx, ((rollAllDice rng sides mods count idx).1).length = count := by
  intro count
  induction count with
  | zero => intro idx; simp [rollAllDice]
  | succ n ih => intro idx; simp [rollAllDice, ih]

theorem rollAllDice_faces_length (rng : Rng) (sides : Nat) (mods : DiceModifiers) :
    ∀ count idx, ((rollAllDice rng sides mods count idx).2.1).length ≤ 101 * count := by
  intro count
  induction count with
  | zero => intro idx; simp [rollAllDice]
  | succ n ih =>
    intro idx
    have h1 := rollOneDie_faces_length rng sides mods idx
    have h2 := ih (rollOneDie rng sides mods idx).2.2
    simp only [rollAllDice, List.length_append]
    calc ((rollOneDie rng sides mods idx).2.1).length
          + ((rollAllDice rng sides mods n (rollOneDie rng sides mods idx).2.2).2.1).length
        ≤ 101 + 101 * n := Nat.add_le_add h1 h2
      _ = 101 * (n + 1) := by ring

theorem rollAllDice_faces_bounds (rng : Rng) {sides : Nat} (mods : DiceModifiers)
    (hs : 0 < sides) :
    ∀ count idx, ∀ v ∈ (rollAllDice rng sides mods count idx).2.1,
      1 ≤ v ∧ v ≤ sides := by
  intro count
  induction count with
  | zero => intro idx v hv; simp [rollAllDice] at hv
  | succ n ih =>
    intro idx v hv
    simp only [rollAllDice, List.mem_append] at hv
    rcases hv with hv | hv
    · exact rollOneDie_faces_bounds rng mods idx hs v hv
    · exact ih _ v hv

theorem rollAllDice_plain (mods : DiceModifiers) (he : mods.explode = false)
    (hr : mods.reroll = none) (rng : Rng) (sides : Nat) :
    ∀ count idx,
      (rollAllDice rng sides mods count idx).2.1 =
        (rollAllDice rng sides mods count idx).1 := by
  intro count
  induction count with
  | zero => intro idx; simp [rollAllDice]
  | succ n ih =>
    intro idx
    simp [rollAllDice, rollOneDie_plain he hr, ih]

theorem rollDice_eq_ok (rng : Rng) {count sides : Nat} (mods : DiceModifiers)
    (negative : Bool) (idx : Nat) (hc1 : 1 ≤ count) (hc2 : count ≤ 1000)
    (hs1 : 1 ≤ sides) (hs2 : sides ≤ 10000) (hp : count * sides ≤ 1000000) :
    rollDice rng count sides mods negative idx =
      .ok ({ total := ((applyKeepDrop mods (rollAllDice rng sides mods count idx).1).sum : Int) *
                      (if negative then -1 else 1),
             rolls := ((rollAllDice rng sides mods count idx).2.1).map (Nat.cast : Nat → Int),
             expression := mkDiceExpr count sides mods negative,
             breakdown := buildBreakdown (rollAllDice rng sides mods count idx).1
               (applyKeepDrop mods (rollAllDice rng sides mods count idx).1) mods },
           (rollAllDice rng sides mods count idx).2.2) := by
  have h1 : ¬(count = 0 ∨ count > MAX_DICE_COUNT) := by unfold MAX_DICE_COUNT; omega
  have h2 : ¬(sides = 0 ∨ sides > MAX_DICE_SIDES) := by unfold MAX_DICE_SIDES; omega
  have h3 : ¬(count * sides > MAX_NUMBER) := by unfold MAX_NUMBER; omega
  unfold rollDice
  rw [if_neg h1, if_neg h2, if_neg h3]

theorem parseTermLoop_break (rng : Rng) (fuel : Nat) (left : DiceResult) (idx : Nat)
    {cs : List Char}
    (h : ∀ c, cs.head? = some c → c ≠ '*' ∧ c ≠ '×' ∧ c ≠ '·') :
    parseTermLoop rng (fuel + 1) left cs idx = .ok (left, cs, idx) := by
  cases cs with
  | nil => rfl
  | cons c rest =>
    have hc := h c rfl
    unfold parseTermLoop parseRun
    dsimp only
    rw [if_neg]
    rintro (h1 | h1 | h1) <;> simp_all

theorem parseExprLoop_break (rng : Rng) (fuel : Nat) (left : DiceResult) (idx : Nat)
    {cs : List Char}
    (h : ∀ c, cs.head? = some c → c ≠ '+' ∧ c ≠ '-') :
    parseExprLoop rng (fuel + 1) left cs idx = .ok (left, cs, idx) := by
  cases cs with
  | nil => rfl
  | cons c rest =>
    have hc := h c rfl
    unfold parseExprLoop parseRun
    dsimp only
    split
    all_goals simp_all

theorem parseFactor_not_paren (rng : Rng) (fuel : Nat) (idx : Nat) {cs : List Char}
    (h : ∀ c, cs.head? = some c → c ≠ '(') :
    parseFactor rng (fuel + 1) cs idx = parseDiceOrNumber rng cs idx := by
  cases cs with
  | nil => rfl
  | cons c rest =>
    have hc := h c rfl
    unfold parseFactor parseRun
    dsimp only
    split
    all_goals simp_all

theorem parseExpression_simple (rng : Rng) (f idx : Nat) {cs rest : List Char}
    {r : DiceResult} {idx' : Nat}
    (hp : ∀ c, cs.head? = some c → c ≠ '(')
    (h : parseDiceOrNumber rng cs idx = .ok (r, rest, idx'))
    (hrest : ∀ c, rest.head? = some c →
      c ≠ '+' ∧ c ≠ '-' ∧ c ≠ '*' ∧ c ≠ '×' ∧ c ≠ '·') :
    parseExpression rng (f + 3) cs idx = .ok (r, rest, idx') := by
  have hfac : parseFactor rng (f + 1) cs idx = .ok (r, rest, idx') :=
    (parseFactor_not_paren rng f idx hp).trans h
  have hterm : parseTerm rng (f + 2) cs idx = .ok (r, rest, idx') := by
    show parseRun rng (f + 2) .term cs idx = _
    unfold parseRun
    dsimp only
    rw [show parseRun rng (f + 1) .factor cs idx = .ok (r, rest, idx') from hfac]
    dsimp only
    exact parseTermLoop_break rng f r idx'
      (fun c hc => ⟨(hrest c hc).2.2.1, (hrest c hc).2.2.2.1, (hrest c hc).2.2.2.2⟩)
  show parseRun rng (f + 3) .expr cs idx = _
  unfold parseRun
  dsimp only
  rw [show parseRun rng (f + 2) .term cs idx = .ok (r, rest, idx') from hterm]
  dsimp only
  exact parseExprLoop_break rng (f + 1) r idx'
    (fun c hc => ⟨(hrest c hc).1, (hrest c hc).2.1⟩)

theorem parseExpression_simple_err (rng : Rng) (f idx : Nat) {cs : List Char}
    {e : String}
    (hp : ∀ c, cs.head? = some c → c ≠ '(')
    (h : parseDiceOrNumber rng cs idx = .error e) :
    parseExpression rng (f + 3) cs idx = .error e := by
  have hfac : parseFactor rng (f + 1) cs idx = .error e :=
    (parseFactor_not_paren rng f idx hp).trans h
  have hterm : parseTerm rng (f + 2) cs idx = .error e := by
    show parseRun rng (f + 2) .term cs idx = _
    unfold parseRun
    dsimp only
    rw [show parseRun rng (f + 1) .factor cs idx = .error e from hfac]
  show parseRun rng (f + 3) .expr cs idx = _
  unfold parseRun
  dsimp only
  rw [show parseRun rng (f + 2) .term cs idx = .error e from hterm]

theorem parse_ok_of_simple {s : String} {rng : Rng} {r : DiceResult} {idx' : Nat}
    (hp : ∀ c, (normalize s).head? = some c → c ≠ '(')
    (h : parseDiceOrNumber rng (normalize s) 0 = .ok (r, [], idx')) :
    parse s rng = .ok r := by
  unfold parse parseFuel
  rw [parseExpression_simple rng (3 * (normalize s).length) 0 hp h (by simp)]

theorem parse_err_of_simple {s : String} {rng : Rng} {e : String}
    (hp : ∀ c, (normalize s).head? = some c → c ≠ '(')
    (h : parseDiceOrNumber rng (normalize s) 0 = .error e) :
    parse s rng = .error ("Parse error: " ++ e) := by
  unfold parse parseFuel
  rw [parseExpression_simple_err rng (3 * (normalize s).length) 0 hp h]

theorem parseDiceOrNumber_no_dash (rng : Rng) (idx : Nat) {cs : List Char}
    (h : ∀ c, cs.head? = some c → c ≠ '-') :
    parseDiceOrNumber rng cs idx = parseDiceOrNumberCore rng false cs idx := by
  cases cs with
  | nil => rfl
  | cons c rest =>
    have hc := h c rfl
    unfold parseDiceOrNumber
    split
    all_goals simp_all

theorem parseDiceOrNumberCore_literal (rng : Rng) (negative : Bool) (idx : Nat)
    (ds rest : List Char)
    (hne : ds ≠ []) (hds : ∀ c ∈ ds, c.isDigit = true)
    (hval : natOfDigits ds ≤ MAX_NUMBER)
    (hrest : ∀ c, rest.head? = some c → c.isDigit = false ∧ c ≠ 'd') :
    parseDiceOrNumberCore rng negative (ds ++ rest) idx =
      .ok ({ total := if negative then -(natOfDigits ds : Int) else (natOfDigits ds : Int),
             rolls := [],
             expression := (if negative then "-" else "") ++ toString (natOfDigits ds),
             breakdown := (if negative then "-" else "") ++ toString (natOfDigits ds) },
           rest, idx) := by
  unfold parseDiceOrNumberCore
  rw [parseNumber_digits hne hds (fun c hc => (hrest c hc).1) hval]
  cases rest with
  | nil => rfl
  | cons c t =>
    have hc := (hrest c rfl).2
    dsimp only
    split
    all_goals simp_all

theorem parseDiceOrNumberCore_dice (rng : Rng) (negative : Bool) (idx : Nat)
    {dsN dsX tail : List Char}
    (hN : dsN ≠ []) (hNd : ∀ c ∈ dsN, c.isDigit = true)
    (hX : dsX ≠ []) (hXd : ∀ c ∈ dsX, c.isDigit = true)
    (htail : ∀ c, tail.head? = some c → c.isDigit = false)
    (hNv : natOfDigits dsN ≤ MAX_NUMBER) (hXv : natOfDigits dsX ≤ MAX_NUMBER)
    (hX1 : 1 ≤ natOfDigits dsX) :
    parseDiceOrNumberCore rng negative (dsN ++ 'd' :: (dsX ++ tail)) idx =
      (match parseModifiers tail {} with
       | .error e => .error e
       | .ok (mods, cs5) =>
         (match rollDice rng (countOr1 (some (natOfDigits dsN))) (natOfDigits dsX)
             mods negative idx with
          | .error e => .error e
          | .ok (r, idx2) => .ok (r, cs5, idx2))) := by
  unfold parseDiceOrNumberCore
  rw [parseNumber_digits hN hNd
    (fun c hc => by injection hc with h1; rw [← h1]; decide) hNv]
  dsimp only
  rw [if_pos (by simp)]
  cases dsX with
  | nil => exact absurd rfl hX
  | cons x xt =>
    have hx := hXd x (by simp)
    have hxp : x ≠ '%' := ne_of_isDigit '%' hx (by decide)
    have hxf : x ≠ 'f' := ne_of_isDigit 'f' hx (by decide)
    rw [List.cons_append]
    rw [if_neg (by simp [hxp]), if_neg (by simp [hxf])]
    rw [show ('d' :: (x :: (xt ++ tail))).tail = (x :: xt) ++ tail by simp]
    rw [parseNumber_digits hX hXd htail hXv]
    dsimp only
    have ht : truthyOptN (some (natOfDigits (x :: xt))) = true := by
      simp only [truthyOptN, ne_eq, bne_iff_ne]
      omega
    rw [if_pos ht]
    rfl

theorem countOr1_of_pos {n : Nat} (h : 1 ≤ n) : countOr1 (some n) = n := by
  cases n with
  | zero => omega
  | succ m => rfl

theorem rollDice_ok_inv {rng : Rng} {count sides : Nat} {mods : DiceModifiers}
    {negative : Bool} {idx : Nat} {r : DiceResult} {idx' : Nat}
    (h : rollDice rng count sides mods negative idx = .ok (r, idx')) :
    r.total = ((applyKeepDrop mods (rollAllDice rng sides mods count idx).1).sum : Int) *
        (if negative then -1 else 1) ∧
      r.rolls = ((rollAllDice rng sides mods count idx).2.1).map (Nat.cast : Nat → Int) ∧
      r.expression = mkDiceExpr count sides mods negative ∧
      r.breakdown = buildBreakdown (rollAllDice rng sides mods count idx).1
        (applyKeepDrop mods (rollAllDice rng sides mods count idx).1) mods ∧
      1 ≤ count ∧ count ≤ 1000 ∧ 1 ≤ sides ∧ sides ≤ 10000 ∧
      count * sides ≤ 1000000 ∧ idx' = (rollAllDice rng sides mods count idx).2.2 := by
  unfold rollDice MAX_DICE_COUNT MAX_DICE_SIDES MAX_NUMBER at h
  by_cases h1 : count = 0 ∨ count > 1000
  · rw [if_pos h1] at h
    exact absurd h (by simp)
  rw [if_neg h1] at h
  by_cases h2 : sides = 0 ∨ sides > 10000
  · rw [if_pos h2] at h
    exact absurd h (by simp)
  rw [if_neg h2] at h
  by_cases h3 : count * sides > 1000000
  · rw [if_pos h3] at h
    exact absurd h (by simp)
  rw [if_neg h3] at h
  dsimp only at h
  rw [Except.ok.injEq, Prod.mk.injEq] at h
  obtain ⟨hr, hi⟩ := h
  subst hr
  refine ⟨rfl, rfl, rfl, rfl, ?_, ?_, ?_, ?_, ?_, hi.symm⟩ <;> omega

theorem rollDice_err (rng : Rng) {count sides : Nat} (mods : DiceModifiers)
    (negative : Bool) (idx : Nat)
    (h : count = 0 ∨ 1000 < count ∨ sides = 0 ∨ 10000 < sides ∨
      1000000 < count * sides) :
    ∃ e, rollDice rng count sides mods negative idx = .error e := by
  unfold rollDice MAX_DICE_COUNT MAX_DICE_SIDES MAX_NUMBER
  split_ifs with h1 h2 h3
  · exact ⟨_, rfl⟩
  · exact ⟨_, rfl⟩
  · exact ⟨_, rfl⟩
  · omega

theorem parseNumber_too_large {cs : List Char}
    (hne : cs.takeWhile Char.isDigit ≠ [])
    (h : MAX_NUMBER < natOfDigits (cs.takeWhile Char.isDigit)) :
    parseNumber cs = .error "Number too large (max 1,000,000)" := by
  unfold parseNumber
  rw [if_neg (by simp [hne]), if_pos h]

theorem parse_dice_term_eq (rng : Rng) {dsN dsX tail : List Char}
    (hN : dsN ≠ []) (hNd : ∀ c ∈ dsN, c.isDigit = true)
    (hX : dsX ≠ []) (hXd : ∀ c ∈ dsX, c.isDigit = true)
    (htailD : ∀ c, tail.head? = some c → c.isDigit = false)
    (htailCh : ∀ c ∈ tail, c.toLower = c ∧ c.isWhitespace = false)
    (hNv : natOfDigits dsN ≤ MAX_NUMBER) (hXv : natOfDigits dsX ≤ MAX_NUMBER)
    (hX1 : 1 ≤ natOfDigits dsX) :
    parse (String.mk (dsN ++ 'd' :: (dsX ++ tail))) rng =
      (match parseExpression rng (parseFuel (dsN ++ 'd' :: (dsX ++ tail)))
          (dsN ++ 'd' :: (dsX ++ tail)) 0 with
       | .error e => .error ("Parse error: " ++ e)
       | .ok (r, rest, _) =>
         match rest with
         | [] => .ok r
         | c :: _ =>
           .error ("Parse error: Unexpected character: '" ++ String.singleton c ++ "'")) := by
  have hnorm : normalize (String.mk (dsN ++ 'd' :: (dsX ++ tail))) =
      dsN ++ 'd' :: (dsX ++ tail) := by
    apply normalize_mk_eq_self
    intro c hc
    rcases List.mem_append.mp hc with hc | hc
    · exact ⟨toLower_of_isDigit (hNd c hc), not_ws_of_isDigit (hNd c hc)⟩
    · rcases List.mem_cons.mp hc with rfl | hc
      · exact ⟨by decide, by decide⟩
      · rcases List.mem_append.mp hc with hc | hc
        · exact ⟨toLower_of_isDigit (hXd c hc), not_ws_of_isDigit (hXd c hc)⟩
        · exact htailCh c hc
  unfold parse
  rw [hnorm]

theorem parseDiceOrNumber_dice (rng : Rng) (idx : Nat) {dsN dsX tail : List Char}
    (hN : dsN ≠ []) (hNd : ∀ c ∈ dsN, c.isDigit = true)
    (hX : dsX ≠ []) (hXd : ∀ c ∈ dsX, c.isDigit = true)
    (htailD : ∀ c, tail.head? = some c → c.isDigit = false)
    (hNv : natOfDigits dsN ≤ MAX_NUMBER) (hXv : natOfDigits dsX ≤ MAX_NUMBER)
    (hX1 : 1 ≤ natOfDigits dsX) :
    parseDiceOrNumber rng (dsN ++ 'd' :: (dsX ++ tail)) idx =
      (match parseModifiers tail {} with
       | .error e => .error e
       | .ok (mods, cs5) =>
         (match rollDice rng (countOr1 (some (natOfDigits dsN))) (natOfDigits dsX)
             mods false idx with
          | .error e => .error e
          | .ok (r, idx2) => .ok (r, cs5, idx2))) := by
  have hdash : ∀ c, (dsN ++ 'd' :: (dsX ++ tail)).head? = some c → c ≠ '-' := by
    intro c hc
    cases dsN with
    | nil => exact absurd rfl hN
    | cons a t =>
      injection hc with h1
      exact h1 ▸ ne_of_isDigit '-' (hNd a (by simp)) (by decide)
  rw [parseDiceOrNumber_no_dash rng idx hdash]
  exact parseDiceOrNumberCore_dice rng false idx hN hNd hX hXd htailD hNv hXv hX1

theorem parse_dice_term_err (rng : Rng) {dsN dsX tail : List Char} {e : String}
    (hN : dsN ≠ []) (hNd : ∀ c ∈ dsN, c.isDigit = true)
    (hX : dsX ≠ []) (hXd : ∀ c ∈ dsX, c.isDigit = true)
    (htailD : ∀ c, tail.head? = some c → c.isDigit = false)
    (htailCh : ∀ c ∈ tail, c.toLower = c ∧ c.isWhitespace = false)
    (hNv : natOfDigits dsN ≤ MAX_NUMBER) (hXv : natOfDigits dsX ≤ MAX_NUMBER)
    (hX1 : 1 ≤ natOfDigits dsX)
    (hmods : parseModifiers tail {} = .error e) :
    parse (String.mk (dsN ++ 'd' :: (dsX ++ tail))) rng =
      .error ("Parse error: " ++ e) := by
  rw [parse_dice_term_eq rng hN hNd hX hXd htailD htailCh hNv hXv hX1]
  have hp : ∀ c, (dsN ++ 'd' :: (dsX ++ tail)).head? = some c → c ≠ '(' := by
    intro c hc
    cases dsN with
    | nil => exact absurd rfl hN
    | cons a t =>
      injection hc with h1
      exact h1 ▸ ne_of_isDigit '(' (hNd a (by simp)) (by decide)
  have hdn : parseDiceOrNumber rng (dsN ++ 'd' :: (dsX ++ tail)) 0 = .error e := by
    rw [parseDiceOrNumber_dice rng 0 hN hNd hX hXd htailD hNv hXv hX1, hmods]
  rw [show parseFuel (dsN ++ 'd' :: (dsX ++ tail)) =
    3 * (dsN ++ 'd' :: (dsX ++ tail)).length + 3 from rfl]
  rw [parseExpression_simple_err rng (3 * (dsN ++ 'd' :: (dsX ++ tail)).length) 0 hp hdn]

theorem parse_dice_term_ok (rng : Rng) (dsN dsX tail : List Char)
    (mods : DiceModifiers)
    (hN : dsN ≠ []) (hNd : ∀ c ∈ dsN, c.isDigit = true)
    (hX : dsX ≠ []) (hXd : ∀ c ∈ dsX, c.isDigit = true)
    (htailD : ∀ c, tail.head? = some c → c.isDigit = false)
    (htailCh : ∀ c ∈ tail, c.toLower = c ∧ c.isWhitespace = false)
    (hN1 : 1 ≤ natOfDigits dsN) (hN2 : natOfDigits dsN ≤ 1000)
    (hX1 : 1 ≤ natOfDigits dsX) (hX2 : natOfDigits dsX ≤ 10000)
    (hprod : natOfDigits dsN * natOfDigits dsX ≤ 1000000)
    (hmods : parseModifiers tail {} = .ok (mods, [])) :
    parse (String.mk (dsN ++ 'd' :: (dsX ++ tail))) rng =
      .ok { total := ((applyKeepDrop mods
              (rollAllDice rng (natOfDigits dsX) mods (natOfDigits dsN) 0).1).sum : Int) * 1,
            rolls := ((rollAllDice rng (natOfDigits dsX) mods (natOfDigits dsN) 0).2.1).map
              (Nat.cast : Nat → Int),
            expression := mkDiceExpr (natOfDigits dsN) (natOfDigits dsX) mods false,
            breakdown := buildBreakdown
              (rollAllDice rng (natOfDigits dsX) mods (natOfDigits dsN) 0).1
              (applyKeepDrop mods
                (rollAllDice rng (natOfDigits dsX) mods (natOfDigits dsN) 0).1) mods } := by
  have hNv : natOfDigits dsN ≤ MAX_NUMBER := by unfold MAX_NUMBER; omega
  have hXv : natOfDigits dsX ≤ MAX_NUMBER := by unfold MAX_NUMBER; omega
  rw [parse_dice_term_eq rng hN hNd hX hXd htailD htailCh hNv hXv hX1]
  have hp : ∀ c, (dsN ++ 'd' :: (dsX ++ tail)).head? = some c → c ≠ '(' := by
    intro c hc
    cases dsN with
    | nil => exact absurd rfl hN
    | cons a t =>
      injection hc with h1
      exact h1 ▸ ne_of_isDigit '(' (hNd a (by simp)) (by decide)
  have hdn : parseDiceOrNumber rng (dsN ++ 'd' :: (dsX ++ tail)) 0 =
      .ok ({ total := ((applyKeepDrop mods
              (rollAllDice rng (natOfDigits dsX) mods (natOfDigits dsN) 0).1).sum : Int) * 1,
             rolls := ((rollAllDice rng (natOfDigits dsX) mods (natOfDigits dsN) 0).2.1).map
               (Nat.cast : Nat → Int),
             expression := mkDiceExpr (natOfDigits dsN) (natOfDigits dsX) mods false,
             breakdown := buildBreakdown
               (rollAllDice rng (natOfDigits dsX) mods (natOfDigits dsN) 0).1
               (applyKeepDrop mods
                 (rollAllDice rng (natOfDigits dsX) mods (natOfDigits dsN) 0).1) mods },
            [], (rollAllDice rng (natOfDigits dsX) mods (natOfDigits dsN) 0).2.2) := by
    rw [parseDiceOrNumber_dice rng 0 hN hNd hX hXd htailD hNv hXv hX1, hmods]
    dsimp only
    rw [countOr1_of_pos hN1]
    rw [rollDice_eq_ok rng mods false 0 hN1 hN2 hX1 hX2 hprod]
    rfl
  rw [show parseFuel (dsN ++ 'd' :: (dsX ++ tail)) =
    3 * (dsN ++ 'd' :: (dsX ++ tail)).length + 3 from rfl]
  rw [parseExpression_simple rng (3 * (dsN ++ 'd' :: (dsX ++ tail)).length) 0 hp hdn
    (by simp)]

instance : IsTotal Nat (fun a b => b ≤ a) :=
  ⟨fun a b => (Nat.le_total b a)⟩

instance : IsTrans Nat (fun a b => b ≤ a) :=
  ⟨fun _ _ _ hab hbc => le_trans hbc hab⟩

instance : IsTotal Nat (fun a b => a ≤ b) :=
  ⟨fun a b => (Nat.le_total a b)⟩

instance : IsTrans Nat (fun a b => a ≤ b) :=
  ⟨fun _ _ _ hab hbc => le_trans hab hbc⟩

theorem sortDescNat_perm (l : List Nat) : List.Perm (sortDescNat l) l :=
  List.perm_insertionSort _ l

theorem sortAscNat_perm (l : List Nat) : List.Perm (sortAscNat l) l :=
  List.perm_insertionSort _ l

theorem sortDescNat_sorted (l : List Nat) :
    (sortDescNat l).Sorted (fun a b => b ≤ a) :=
  List.sorted_insertionSort _ l

theorem sortAscNat_sorted (l : List Nat) :
    (sortAscNat l).Sorted (fun a b => a ≤ b) :=
  List.sorted_insertionSort _ l

theorem applyKeepDrop_keep {mods : DiceModifiers} {k : Nat} (hk : mods.keep = some k)
    (hk0 : k ≠ 0) (perDie : List Nat) :
    applyKeepDrop mods perDie = (sortDescNat perDie).take k := by
  unfold applyKeepDrop
  rw [hk]
  simp [truthyOptN, hk0]

theorem applyKeepDrop_drop {mods : DiceModifiers} {d : Nat}
    (hkF : truthyOptN mods.keep = false) (hd : mods.drop = some d) (hd0 : d ≠ 0)
    (perDie : List Nat) :
    applyKeepDrop mods perDie = (sortAscNat perDie).drop d := by
  unfold applyKeepDrop
  rw [hkF, hd]
  simp [truthyOptN, hd0]

theorem applyKeepDrop_none (mods : DiceModifiers)
    (hkF : truthyOptN mods.keep = false) (hdF : truthyOptN mods.drop = false)
    (perDie : List Nat) :
    applyKeepDrop mods perDie = perDie := by
  unfold applyKeepDrop
  rw [hkF, hdF]
  simp

theorem sorted_take_drop_ge (l : List Nat) (k : Nat) :
    ∀ x ∈ (sortDescNat l).take k, ∀ y ∈ (sortDescNat l).drop k, y ≤ x := by
  have hs : ((sortDescNat l).take k ++ (sortDescNat l).drop k).Pairwise
      (fun a b => b ≤ a) := by
    rw [List.take_append_drop]
    exact sortDescNat_sorted l
  exact (List.pairwise_append.mp hs).2.2

theorem sorted_drop_take_le (l : List Nat) (k : Nat) :
    ∀ x ∈ (sortAscNat l).drop k, ∀ y ∈ (sortAscNat l).take k, y ≤ x := by
  have hs : ((sortAscNat l).take k ++ (sortAscNat l).drop k).Pairwise
      (fun a b => a ≤ b) := by
    rw [List.take_append_drop]
    exact sortAscNat_sorted l
  intro x hx y hy
  exact (List.pairwise_append.mp hs).2.2 y hy x hx

theorem coe_take_add_drop (s : List Nat) (k : Nat) :
    (↑s : Multiset Nat) = ↑(s.take k) + ↑(s.drop k) := by
  rw [Multiset.coe_add, List.take_append_drop]

theorem rollAllDice_faces_length_noexplode {mods : DiceModifiers}
    (he : mods.explode = false) (rng : Rng) (sides : Nat) :
    ∀ count idx, ((rollAllDice rng sides mods count idx).2.1).length = count := by
  intro count
  induction count with
  | zero => intro idx; simp [rollAllDice]
  | succ n ih =>
    intro idx
    have h1 : ((rollOneDie rng sides mods idx).2.1).length = 1 := by
      rw [rollOneDie_faces_eq, he]
      simp
    simp only [rollAllDice, List.length_append, h1, ih]
    omega

theorem mkDiceExpr_neg (count sides : Nat) (mods : DiceModifiers) :
    mkDiceExpr count sides mods true = "-" ++ mkDiceExpr count sides mods false := rfl

theorem parse_literal (rng : Rng) {ds : List Char} (hne : ds ≠ [])
    (hds : ∀ c ∈ ds, c.isDigit = true) (hval : natOfDigits ds ≤ MAX_NUMBER) :
    parse (String.mk ds) rng =
      .ok { total := (natOfDigits ds : Int), rolls := [],
            expression := toString (natOfDigits ds),
            breakdown := toString (natOfDigits ds) } := by
  have hnorm : normalize (String.mk ds) = ds := normalize_mk_eq_self
    (fun c hc => ⟨toLower_of_isDigit (hds c hc), not_ws_of_isDigit (hds c hc)⟩)
  have hp : ∀ c, (normalize (String.mk ds)).head? = some c → c ≠ '(' := by
    rw [hnorm]
    intro c hc
    cases ds with
    | nil => exact absurd rfl hne
    | cons a t =>
      injection hc with h1
      exact h1 ▸ ne_of_isDigit '(' (hds a (by simp)) (by decide)
  have hdash : ∀ c, ds.head? = some c → c ≠ '-' := by
    intro c hc
    cases ds with
    | nil => exact absurd rfl hne
    | cons a t =>
      injection hc with h1
      exact h1 ▸ ne_of_isDigit '-' (hds a (by simp)) (by decide)
  have hlit := parseDiceOrNumberCore_literal rng false 0 ds [] hne hds hval
    (by intro c hc; simp at hc)
  rw [List.append_nil] at hlit
  have hdn : parseDiceOrNumber rng (normalize (String.mk ds)) 0 =
      .ok ({ total := (natOfDigits ds : Int), rolls := [],
             expression := toString (natOfDigits ds),
             breakdown := toString (natOfDigits ds) }, [], 0) := by
    rw [hnorm, parseDiceOrNumber_no_dash rng 0 hdash]
    exact hlit
  exact parse_ok_of_simple hp hdn

theorem rollOneDie_explodeOn_zero (rng : Rng) (sides idx : Nat) :
    rollOneDie rng sides { explode := true, explodeOn := some 0 } idx =
      rollOneDie rng sides { explode := true } idx := rfl

theorem rollAllDice_explodeOn_zero (rng : Rng) (sides : Nat) :
    ∀ count idx,
      rollAllDice rng sides { explode := true, explodeOn := some 0 } count idx =
        rollAllDice rng sides { explode := true } count idx := by
  intro count
  induction count with
  | zero => intro idx; rfl
  | succ n ih =>
    intro idx
    simp only [rollAllDice, rollOneDie_explodeOn_zero, ih]

/-- C3: parse fails with a ParseError whenever a dice term has count outside
`[1, 1000]`, sides outside `[1, 10000]`, or `count * sides > 1000000`
(`rollDice` rejects every such term before rolling), and whenever a literal
number token exceeds 1000000 (`parseNumber` rejects it); in particular
`parse "1001d6"`, `parse "1d10001"`, `parse "1000d10000"` and
`parse "1000000001"` all fail, for every random stream. -/
theorem claimC3 :
    (∀ (rng : Rng) (count sides : Nat) (mods : DiceModifiers) (negative : Bool)
       (idx : Nat),
      count = 0 ∨ 1000 < count ∨ sides = 0 ∨ 10000 < sides ∨
          1000000 < count * sides →
      ∃ e, rollDice rng count sides mods negative idx = .error e) ∧
    (∀ cs : List Char, cs.takeWhile Char.isDigit ≠ [] →
      1000000 < natOfDigits (cs.takeWhile Char.isDigit) →
      parseNumber cs = .error "Number too large (max 1,000,000)") ∧
    (∀ rng : Rng,
      parse "1001d6" rng = .error "Parse error: Dice count must be between 1 and 1000") ∧
    (∀ rng : Rng,
      parse "1d10001" rng = .error "Parse error: Dice sides must be between 1 and 10000") ∧
    (∀ rng : Rng,
      parse "1000d10000" rng = .error "Parse error: Total possible outcomes too large") ∧
    (∀ rng : Rng,
      parse "1000000001" rng = .error "Parse error: Number too large (max 1,000,000)") := by
  refine ⟨?_, ?_, fun rng => rfl, fun rng => rfl, fun rng => rfl, fun rng => rfl⟩
  · intro rng count sides mods negative idx h
    exact rollDice_err rng mods negative idx h
  · intro cs h1 h2
    exact parseNumber_too_large h1 (by unfold MAX_NUMBER; omega)

/-- Witness for C3 at concrete violating inputs. -/
theorem claimC3_witness :
    (∃ e, rollDice (fun _ => 0) 1001 6 {} false 0 = .error e) ∧
      parseNumber ['1', '0', '0', '0', '0', '0', '0', '1'] =
        .error "Number too large (max 1,000,000)" ∧
      parse "1001d6" (fun _ => 0) =
        .error "Parse error: Dice count must be between 1 and 1000" :=
  ⟨claimC3.1 (fun _ => 0) 1001 6 {} false 0 (by omega),
   claimC3.2.1 ['1', '0', '0', '0', '0', '0', '0', '1'] (by decide) (by decide),
   claimC3.2.2.1 (fun _ => 0)⟩

/-- C4: evaluation of an exploding dice term terminates for every random
stream and every threshold, because the explosion loop is a total function
capped at 100 iterations: every die contributes its initial face plus at most
100 explosion faces (so at most 101 faces), and a whole `rollDice` result has
at most `101 * count` faces. -/
theorem claimC4 :
    (∀ (rng : Rng) (sides : Nat) (mods : DiceModifiers) (idx : Nat),
      ∃ tot extras idx2,
        rollOneDie rng sides mods idx = (tot, randFace rng idx sides :: extras, idx2) ∧
          extras.length ≤ 100 ∧
          ((rollOneDie rng sides mods idx).2.1).length ≤ 101) ∧
    (∀ (rng : Rng) (count sides : Nat) (mods : DiceModifiers) (negative : Bool)
       (idx : Nat) (r : DiceResult) (idx' : Nat),
      rollDice rng count sides mods negative idx = .ok (r, idx') →
      r.rolls.length ≤ 101 * count) := by
  constructor
  · intro rng sides mods idx
    refine ⟨(rollOneDie rng sides mods idx).1,
      (if mods.explode then
         (explodeLoop rng sides (explodeThresholdOf mods sides)
           (randFace rng idx sides) 100 (idx + 1)).1
       else []),
      (rollOneDie rng sides mods idx).2.2, ?_, ?_,
      rollOneDie_faces_length rng sides mods idx⟩
    · exact Prod.ext rfl (Prod.ext (rollOneDie_faces_eq rng sides mods idx) rfl)
    · split
      · exact explodeLoop_length_le rng sides _ 100 _ _
      · simp
  · intro rng count sides mods negative idx r idx' h
    have hinv := rollDice_ok_inv h
    rw [hinv.2.1]
    simpa using rollAllDice_faces_length rng sides mods count idx

/-- Witness for C4 at a concrete roll. -/
theorem claimC4_witness :
    ({ total := 2, rolls := [1, 1], expression := "2d6",
       breakdown := "[1, 1] = 2" } : DiceResult).rolls.length ≤ 101 * 2 :=
  claimC4.2 (fun _ => 0) 2 6 {} false 0
    { total := 2, rolls := [1, 1], expression := "2d6", breakdown := "[1, 1] = 2" }
    2 rfl

/-- C8: a malformed input yields a ParseError and no result: any unconsumed
trailing input after a complete expression is rejected by `parse`, and the
concrete malformed inputs `"2d6++"` (empty factor after an operator),
`"(2d6"` (missing closing parenthesis) and `""` (no factor at all) each
produce an error for every random stream. -/
theorem claimC8 :
    (∀ (s : String) (rng : Rng) (r : DiceResult) (c : Char) (rest : List Char)
       (idx' : Nat),
      parseExpression rng (parseFuel (normalize s)) (normalize s) 0 =
          .ok (r, c :: rest, idx') →
      parse s rng =
        .error ("Parse error: Unexpected character: '" ++ String.singleton c ++ "'")) ∧
    (∀ rng : Rng,
      parse "2d6++" rng = .error "Parse error: Expected number or dice notation") ∧
    (∀ rng : Rng,
      parse "(2d6" rng = .error "Parse error: Missing closing parenthesis") ∧
    (∀ rng : Rng,
      parse "" rng = .error "Parse error: Expected number or dice notation") := by
  refine ⟨?_, fun rng => rfl, fun rng => rfl, fun rng => rfl⟩
  intro s rng r c rest idx' h
  unfold parse
  rw [h]

/-- Witness for C8: a dangling `)` after a complete expression. -/
theorem claimC8_witness :
    parse "2d6)" (fun _ => 0) = .error "Parse error: Unexpected character: ')'" :=
  claimC8.1 "2d6)" (fun _ => 0)
    { total := 2, rolls := [1, 1], expression := "2d6", breakdown := "[1, 1] = 2" }
    ')' [] 2 rfl

/-- C1: for every dice term `NdX` (as digit strings) within bounds and with no
modifiers, `parse` succeeds and the result's `total` is the sum of exactly `N`
values each in `[1, X]`, with the roll list of length exactly `N`. -/
theorem claimC1 (dsN dsX : List Char) (rng : Rng)
    (hN : dsN ≠ []) (hNd : ∀ c ∈ dsN, c.isDigit = true)
    (hX : dsX ≠ []) (hXd : ∀ c ∈ dsX, c.isDigit = true)
    (hN1 : 1 ≤ natOfDigits dsN) (hN2 : natOfDigits dsN ≤ 1000)
    (hX1 : 1 ≤ natOfDigits dsX) (hX2 : natOfDigits dsX ≤ 10000)
    (hprod : natOfDigits dsN * natOfDigits dsX ≤ 1000000) :
    ∃ r, parse (String.mk (dsN ++ 'd' :: dsX)) rng = .ok r ∧
      r.rolls.length = natOfDigits dsN ∧
      (∀ v ∈ r.rolls, 1 ≤ v ∧ v ≤ (natOfDigits dsX : Int)) ∧
      r.total = r.rolls.sum := by
  have h := parse_dice_term_ok rng dsN dsX [] {} hN hNd hX hXd
    (by intro c hc; simp at hc) (by intro c hc; simp at hc)
    hN1 hN2 hX1 hX2 hprod rfl
  rw [List.append_nil] at h
  set N := natOfDigits dsN
  set X := natOfDigits dsX
  have hplain := rollAllDice_plain {} rfl rfl rng X N 0
  have hAKD : applyKeepDrop {} (rollAllDice rng X {} N 0).1 =
      (rollAllDice rng X {} N 0).1 := applyKeepDrop_none {} rfl rfl _
  refine ⟨_, h, ?_, ?_, ?_⟩
  · simp only [hplain]
    simp [rollAllDice_perDie_length]
  · intro v hv
    simp only [List.mem_map] at hv
    obtain ⟨u, hu, rfl⟩ := hv
    have hb := rollAllDice_faces_bounds rng {} (by omega) N 0 u hu
    constructor
    · exact_mod_cast hb.1
    · exact_mod_cast hb.2
  · simp only [hAKD, mul_one]
    rw [hplain, ← Nat.cast_list_sum]

/-- Witness for C1 at the term `2d6` with the all-zero stream. -/
theorem claimC1_witness :
    ∃ r, parse (String.mk (['2'] ++ 'd' :: ['6'])) (fun _ => 0) = .ok r ∧
      r.rolls.length = natOfDigits ['2'] ∧
      (∀ v ∈ r.rolls, 1 ≤ v ∧ v ≤ (natOfDigits ['6'] : Int)) ∧
      r.total = r.rolls.sum :=
  claimC1 ['2'] ['6'] (fun _ => 0) (by decide) (by decide) (by decide) (by decide)
    (by decide) (by decide) (by decide) (by decide) (by decide)

/-- C2: in a dice term evaluation, `keep = Y ≠ 0` retains exactly `min(Y, N)`
of the `N` per-die values, a sub-multiset of the per-die totals in which every
retained value is at least every discarded one (the Y largest); `drop = Y ≠ 0`
with keep falsy retains `N - min(Y, N)`, the remainder after discarding the Y
smallest; with neither modifier everything is retained; and the result's
total before negation is the sum of the retained values. -/
theorem claimC2 (rng : Rng) (count sides : Nat) (mods : DiceModifiers)
    (negative : Bool) (idx : Nat) (r : DiceResult) (idx' : Nat)
    (h : rollDice rng count sides mods negative idx = .ok (r, idx')) :
    (∀ k, mods.keep = some k → k ≠ 0 →
      (applyKeepDrop mods (rollAllDice rng sides mods count idx).1).length =
          min k count ∧
        (↑(applyKeepDrop mods (rollAllDice rng sides mods count idx).1) :
            Multiset Nat) ≤ ↑(rollAllDice rng sides mods count idx).1 ∧
        (∀ x ∈ applyKeepDrop mods (rollAllDice rng sides mods count idx).1,
          ∀ y ∈ (↑(rollAllDice rng sides mods count idx).1 : Multiset Nat) -
            ↑(applyKeepDrop mods (rollAllDice rng sides mods count idx).1),
            y ≤ x)) ∧
    (∀ d, truthyOptN mods.keep = false → mods.drop = some d → d ≠ 0 →
      (applyKeepDrop mods (rollAllDice rng sides mods count idx).1).length =
          count - min d count ∧
        (↑(applyKeepDrop mods (rollAllDice rng sides mods count idx).1) :
            Multiset Nat) ≤ ↑(rollAllDice rng sides mods count idx).1 ∧
        (∀ x ∈ applyKeepDrop mods (rollAllDice rng sides mods count idx).1,
          ∀ y ∈ (↑(rollAllDice rng sides mods count idx).1 : Multiset Nat) -
            ↑(applyKeepDrop mods (rollAllDice rng sides mods count idx).1),
            y ≤ x)) ∧
    (truthyOptN mods.keep = false → truthyOptN mods.drop = false →
      applyKeepDrop mods (rollAllDice rng sides mods count idx).1 =
        (rollAllDice rng sides mods count idx).1) ∧
    r.total = ((applyKeepDrop mods (rollAllDice rng sides mods count idx).1).sum :
        Int) * (if negative then -1 else 1) := by
  have hlen : ((rollAllDice rng sides mods count idx).1).length = count :=
    rollAllDice_perDie_length rng sides mods count idx
  refine ⟨?_, ?_, fun hk hd => applyKeepDrop_none mods hk hd _, (rollDice_ok_inv h).1⟩
  · intro k hk hk0
    rw [applyKeepDrop_keep hk hk0]
    have hperm : List.Perm (sortDescNat (rollAllDice rng sides mods count idx).1)
        (rollAllDice rng sides mods count idx).1 := sortDescNat_perm _
    have hco : (↑(rollAllDice rng sides mods count idx).1 : Multiset Nat) =
        ↑((sortDescNat (rollAllDice rng sides mods count idx).1).take k) +
          ↑((sortDescNat (rollAllDice rng sides mods count idx).1).drop k) := by
      rw [← (Multiset.coe_eq_coe.mpr hperm)]
      exact coe_take_add_drop _ k
    refine ⟨?_, ?_, ?_⟩
    · rw [List.length_take, hperm.length_eq, hlen]
    · rw [hco]
      exact Multiset.le_add_right _ _
    · intro x hx y hy
      rw [hco, add_tsub_cancel_left, Multiset.mem_coe] at hy
      exact sorted_take_drop_ge _ k x hx y hy
  · intro d hkF hd hd0
    rw [applyKeepDrop_drop hkF hd hd0]
    have hperm : List.Perm (sortAscNat (rollAllDice rng sides mods count idx).1)
        (rollAllDice rng sides mods count idx).1 := sortAscNat_perm _
    have hco : (↑(rollAllDice rng sides mods count idx).1 : Multiset Nat) =
        ↑((sortAscNat (rollAllDice rng sides mods count idx).1).take d) +
          ↑((sortAscNat (rollAllDice rng sides mods count idx).1).drop d) := by
      rw [← (Multiset.coe_eq_coe.mpr hperm)]
      exact coe_take_add_drop _ d
    refine ⟨?_, ?_, ?_⟩
    · rw [List.length_drop, hperm.length_eq, hlen]
      omega
    · rw [hco]
      exact Multiset.le_add_left _ _
    · intro x hx y hy
      rw [hco, add_tsub_cancel_right, Multiset.mem_coe] at hy
      exact sorted_drop_take_le _ d x hx y hy

/-- Witness for C2 at the term `4d6k3` with the identity stream (faces
1, 2, 3, 4; keep the three largest). -/
theorem claimC2_witness :
    (applyKeepDrop { keep := some 3 }
        (rollAllDice (fun n => n) 6 { keep := some 3 } 4 0).1).length = min 3 4 ∧
      ({ total := 9, rolls := [1, 2, 3, 4], expression := "4d6k3",
         breakdown := "[1, 2, 3, 4] → [4, 3, 2] = 9" } : DiceResult).total =
        ((applyKeepDrop { keep := some 3 }
          (rollAllDice (fun n => n) 6 { keep := some 3 } 4 0).1).sum : Int) * 1 :=
  ⟨((claimC2 (fun n => n) 4 6 { keep := some 3 } false 0
      { total := 9, rolls := [1, 2, 3, 4], expression := "4d6k3",
        breakdown := "[1, 2, 3, 4] → [4, 3, 2] = 9" } 4 rfl).1 3 rfl
      (by decide)).1,
   (claimC2 (fun n => n) 4 6 { keep := some 3 } false 0
      { total := 9, rolls := [1, 2, 3, 4], expression := "4d6k3",
        breakdown := "[1, 2, 3, 4] → [4, 3, 2] = 9" } 4 rfl).2.2.2⟩

/-- C5 counterexample: parsing `1d6r6` with the identity stream rolls face 1,
rerolls it to a fresh face 2 — which becomes the total — yet the returned
roll list is `[1]`: the fresh face produced by the reroll is not in `rolls`,
so `rolls` is not the sequence of every individual face produced. -/
theorem claimC5_counterexample :
    parse "1d6r6" (fun n => n) =
        .ok (DiceResult.mk 2 [1] "1d6r6" "[2] = 2") ∧
      (2 : Int) ∉ (DiceResult.mk 2 [1] "1d6r6" "[2] = 2").rolls :=
  ⟨rfl, by decide⟩

/-- C5 amended: `rolls` is the ordered flat sequence of the faces produced by
the initial roll and the explosions of each die, in die order; a reroll
replaces the die's counted value without appending its fresh face — the face
list of a die does not depend on the reroll modifier, and with explosion off
the roll list has exactly `count` entries even when rerolls occur; a pure
numeric literal parses to an empty roll list. -/
theorem claimC5_amended :
    (∀ (rng : Rng) (count sides : Nat) (mods : DiceModifiers) (negative : Bool)
       (idx : Nat) (r : DiceResult) (idx' : Nat),
      rollDice rng count sides mods negative idx = .ok (r, idx') →
      r.rolls = ((rollAllDice rng sides mods count idx).2.1).map
          (Nat.cast : Nat → Int) ∧
        (mods.explode = false → r.rolls.length = count)) ∧
    (∀ (rng : Rng) (sides : Nat) (mods : DiceModifiers) (idx : Nat),
      (rollOneDie rng sides mods idx).2.1 =
        (rollOneDie rng sides { mods with reroll := none } idx).2.1) ∧
    (∀ (ds : List Char) (rng : Rng), ds ≠ [] → (∀ c ∈ ds, c.isDigit = true) →
      natOfDigits ds ≤ 1000000 →
      parse (String.mk ds) rng =
        .ok { total := (natOfDigits ds : Int), rolls := [],
              expression := toString (natOfDigits ds),
              breakdown := toString (natOfDigits ds) }) := by
  refine ⟨?_, ?_, ?_⟩
  · intro rng count sides mods negative idx r idx' h
    have hinv := rollDice_ok_inv h
    refine ⟨hinv.2.1, fun he => ?_⟩
    rw [hinv.2.1, List.length_map]
    exact rollAllDice_faces_length_noexplode he rng sides count idx
  · intro rng sides mods idx
    rw [rollOneDie_faces_eq, rollOneDie_faces_eq]
    rfl
  · intro ds rng hne hds hval
    exact parse_literal rng hne hds (by unfold MAX_NUMBER; omega)

/-- Witness for the amended C5 at the term `1d6r6` with the identity stream
and the literal `7`. -/
theorem claimC5_amended_witness :
    (({ total := 2, rolls := [1], expression := "1d6r6",
        breakdown := "[2] = 2" } : DiceResult).rolls =
      ((rollAllDice (fun n => n) 6 { reroll := some 6 } 1 0).2.1).map
        (Nat.cast : Nat → Int) ∧
      (({ reroll := some 6 } : DiceModifiers).explode = false →
        ({ total := 2, rolls := [1], expression := "1d6r6",
           breakdown := "[2] = 2" } : DiceResult).rolls.length = 1)) ∧
      parse (String.mk ['7']) (fun n => n) =
        .ok { total := (natOfDigits ['7'] : Int), rolls := [],
              expression := toString (natOfDigits ['7']),
              breakdown := toString (natOfDigits ['7']) } :=
  ⟨claimC5_amended.1 (fun n => n) 1 6 { reroll := some 6 } false 0
      { total := 2, rolls := [1], expression := "1d6r6", breakdown := "[2] = 2" }
      2 rfl,
   claimC5_amended.2.2 ['7'] (fun n => n) (by decide) (by decide) (by decide)⟩

/-- C6: a leading minus negates exactly once, applied to the term's final
total after rolling, explosion, reroll and keep/drop: the negated evaluation
equals the unnegated one with only `total` negated and `-` prefixed to the
expression (roll list and breakdown untouched); the unnegated total is the
sum of the retained values, every rolled face stays at least 1 (no face is
negated); a negated literal evaluates to `-n` with no rolls; and
`parseDiceOrNumber` consumes a leading `-` purely as the negative flag. -/
theorem claimC6 :
    (∀ (rng : Rng) (count sides : Nat) (mods : DiceModifiers) (idx : Nat)
       (r : DiceResult) (idx' : Nat),
      rollDice rng count sides mods false idx = .ok (r, idx') →
      rollDice rng count sides mods true idx =
          .ok ({ r with total := -r.total, expression := "-" ++ r.expression },
            idx') ∧
        r.total = ((applyKeepDrop mods
          (rollAllDice rng sides mods count idx).1).sum : Int) ∧
        (∀ v ∈ r.rolls, 1 ≤ v)) ∧
    (∀ (rng : Rng) (cs : List Char) (idx : Nat),
      parseDiceOrNumber rng ('-' :: cs) idx = parseDiceOrNumberCore rng true cs idx) ∧
    (∀ (rng : Rng) (ds : List Char) (idx : Nat), ds ≠ [] →
      (∀ c ∈ ds, c.isDigit = true) → natOfDigits ds ≤ 1000000 →
      parseDiceOrNumberCore rng true ds idx =
        .ok ({ total := -(natOfDigits ds : Int), rolls := [],
               expression := "-" ++ toString (natOfDigits ds),
               breakdown := "-" ++ toString (natOfDigits ds) }, [], idx)) := by
  refine ⟨?_, fun rng cs idx => rfl, ?_⟩
  · intro rng count sides mods idx r idx' h
    have hinv := rollDice_ok_inv h
    obtain ⟨ht, hr, he, hb, h1, h2, h3, h4, h5, hi⟩ := hinv
    refine ⟨?_, ?_, ?_⟩
    · rw [rollDice_eq_ok rng mods true idx h1 h2 h3 h4 h5, hi]
      refine congrArg (fun x =>
        Except.ok (x, (rollAllDice rng sides mods count idx).2.2)) ?_
      show DiceResult.mk
          (((applyKeepDrop mods (rollAllDice rng sides mods count idx).1).sum : Int) *
            (if (true : Bool) then -1 else 1))
          (((rollAllDice rng sides mods count idx).2.1).map (Nat.cast : Nat → Int))
          (mkDiceExpr count sides mods true)
          (buildBreakdown (rollAllDice rng sides mods count idx).1
            (applyKeepDrop mods (rollAllDice rng sides mods count idx).1) mods) =
        DiceResult.mk (-r.total) r.rolls ("-" ++ r.expression) r.breakdown
      rw [ht, hr, he, hb, mkDiceExpr_neg]
      simp
    · rw [ht]
      simp
    · intro v hv
      rw [hr] at hv
      simp only [List.mem_map] at hv
      obtain ⟨u, hu, rfl⟩ := hv
      have := (rollAllDice_faces_bounds rng mods (by omega) count idx u hu).1
      exact_mod_cast this
  · intro rng ds idx hne hds hval
    have h := parseDiceOrNumberCore_literal rng true idx ds [] hne hds
      (by unfold MAX_NUMBER; omega) (by intro c hc; simp at hc)
    rw [List.append_nil] at h
    exact h

/-- Witness for C6 at the term `2d6` with the identity stream (faces 1, 2). -/
theorem claimC6_witness :
    rollDice (fun n => n) 2 6 {} true 0 =
        .ok ({ (DiceResult.mk 3 [1, 2] "2d6" "[1, 2] = 3") with
          total := -(DiceResult.mk 3 [1, 2] "2d6" "[1, 2] = 3").total,
          expression :=
            "-" ++ (DiceResult.mk 3 [1, 2] "2d6" "[1, 2] = 3").expression }, 2) ∧
      (DiceResult.mk 3 [1, 2] "2d6" "[1, 2] = 3").total =
        ((applyKeepDrop {} (rollAllDice (fun n => n) 6 {} 2 0).1).sum : Int) ∧
      (∀ v ∈ (DiceResult.mk 3 [1, 2] "2d6" "[1, 2] = 3").rolls, 1 ≤ v) :=
  claimC6.1 (fun n => n) 2 6 {} 0 (DiceResult.mk 3 [1, 2] "2d6" "[1, 2] = 3") 2 rfl

/-- C10: a negated non-fudge dice term reports in its breakdown the unnegated
sum `S` of the retained per-die values as the trailing `= S`, while the
returned total is `-S`; the negation sign appears in the expression (prefixed
to the unnegated canonical expression), never in the breakdown's sum. -/
theorem claimC10 (rng : Rng) (count sides : Nat) (mods : DiceModifiers) (idx : Nat)
    (r : DiceResult) (idx' : Nat)
    (h : rollDice rng count sides mods true idx = .ok (r, idx')) :
    ∃ S p, S = (applyKeepDrop mods (rollAllDice rng sides mods count idx).1).sum ∧
      r.total = -(S : Int) ∧
      r.breakdown = p ++ " = " ++ toString S ∧
      r.expression = "-" ++ mkDiceExpr count sides mods false := by
  obtain ⟨ht, hr, he, hb, -⟩ := rollDice_ok_inv h
  refine ⟨_,
    (if truthyOptN mods.keep || truthyOptN mods.drop then
      ("[" ++ String.intercalate ", "
          (((rollAllDice rng sides mods count idx).1).map toString) ++ "]") ++
        " → [" ++ String.intercalate ", "
          ((applyKeepDrop mods
            (rollAllDice rng sides mods count idx).1).map toString) ++ "]"
     else "[" ++ String.intercalate ", "
          (((rollAllDice rng sides mods count idx).1).map toString) ++ "]"),
    rfl, ?_, ?_, ?_⟩
  · rw [ht]
    simp
  · rw [hb]
    unfold buildBreakdown
    rfl
  · rw [he, mkDiceExpr_neg]

/-- Witness for C10 at the term `-2d6` with the identity stream. -/
theorem claimC10_witness :
    ∃ S p, S = (applyKeepDrop {} (rollAllDice (fun n => n) 6 {} 2 0).1).sum ∧
      (DiceResult.mk (-3) [1, 2] "-2d6" "[1, 2] = 3").total = -(S : Int) ∧
      (DiceResult.mk (-3) [1, 2] "-2d6" "[1, 2] = 3").breakdown =
        p ++ " = " ++ toString S ∧
      (DiceResult.mk (-3) [1, 2] "-2d6" "[1, 2] = 3").expression =
        "-" ++ mkDiceExpr 2 6 {} false :=
  claimC10 (fun n => n) 2 6 {} 0 (DiceResult.mk (-3) [1, 2] "-2d6" "[1, 2] = 3") 2 rfl

/-- C7: combining two evaluated results concatenates their roll lists in
order (left before right) and combines the totals with the corresponding
arithmetic operation; `×` and `·` behave exactly like `*` in the term loop;
and `parse "(2d6+3)*2"` always yields a result whose total is (sum of the two
d6 faces plus 3) times 2, with exactly two faces each in `[1, 6]`. -/
theorem claimC7 :
    (∀ l r : DiceResult,
      (combineResults l r '+').total = l.total + r.total ∧
        (combineResults l r '+').rolls = l.rolls ++ r.rolls ∧
        (combineResults l r '-').total = l.total - r.total ∧
        (combineResults l r '-').rolls = l.rolls ++ r.rolls ∧
        (multiplyResults l r).total = l.total * r.total ∧
        (multiplyResults l r).rolls = l.rolls ++ r.rolls) ∧
    (∀ (rng : Rng) (fuel : Nat) (left : DiceResult) (cs : List Char) (idx : Nat),
      parseTermLoop rng fuel left ('×' :: cs) idx =
          parseTermLoop rng fuel left ('*' :: cs) idx ∧
        parseTermLoop rng fuel left ('·' :: cs) idx =
          parseTermLoop rng fuel left ('*' :: cs) idx) ∧
    (∀ rng : Rng, ∃ r, parse "(2d6+3)*2" rng = .ok r ∧
      r.rolls.length = 2 ∧ (∀ v ∈ r.rolls, 1 ≤ v ∧ v ≤ 6) ∧
      r.total = (r.rolls.sum + 3) * 2) := by
  refine ⟨fun l r => ⟨rfl, rfl, rfl, rfl, rfl, rfl⟩, ?_, ?_⟩
  · intro rng fuel left cs idx
    cases fuel with
    | zero => exact ⟨rfl, rfl⟩
    | succ f => exact ⟨rfl, rfl⟩
  · intro rng
    have hplain := rollAllDice_plain {} rfl rfl rng 6 2 0
    have hAKD := applyKeepDrop_none {} rfl rfl (rollAllDice rng 6 {} 2 0).1
    refine ⟨multiplyResults (combineResults
        { total := ((applyKeepDrop {} (rollAllDice rng 6 {} 2 0).1).sum : Int) * 1,
          rolls := ((rollAllDice rng 6 {} 2 0).2.1).map (Nat.cast : Nat → Int),
          expression := mkDiceExpr 2 6 {} false,
          breakdown := buildBreakdown (rollAllDice rng 6 {} 2 0).1
            (applyKeepDrop {} (rollAllDice rng 6 {} 2 0).1) {} }
        (DiceResult.mk 3 [] "3" "3") '+')
      (DiceResult.mk 2 [] "2" "2"), rfl, ?_, ?_, ?_⟩
    · simp only [multiplyResults, combineResults, List.append_nil, List.length_map,
        hplain]
      exact rollAllDice_perDie_length rng 6 {} 2 0
    · intro v hv
      simp only [multiplyResults, combineResults, List.append_nil,
        List.mem_map] at hv
      obtain ⟨u, hu, rfl⟩ := hv
      have hb := rollAllDice_faces_bounds rng {} (by omega) 2 0 u hu
      exact ⟨by exact_mod_cast hb.1, by exact_mod_cast hb.2⟩
    · simp only [multiplyResults, combineResults, List.append_nil, hAKD, hplain,
        mul_one]
      rw [← Nat.cast_list_sum]
      norm_num

/-- Witness for C7: none needed for the hypothesis-free components; this
instantiates the concrete `(2d6+3)*2` component at the all-zero stream. -/
theorem claimC7_witness :
    ∃ r, parse "(2d6+3)*2" (fun _ => 0) = .ok r ∧
      r.rolls.length = 2 ∧ (∀ v ∈ r.rolls, 1 ≤ v ∧ v ≤ 6) ∧
      r.total = (r.rolls.sum + 3) * 2 :=
  claimC7.2.2 (fun _ => 0)

/-- C9: a zero modifier argument is falsy, so `k0`, `d0`, `r0` fail as if the
number were missing (with the corresponding message), while `e0` parses
successfully and behaves exactly like `!` (explode on the maximum face),
for every in-bounds `N`, `X` (as digit strings) and every stream. -/
theorem claimC9 (dsN dsX : List Char) (rng : Rng)
    (hN : dsN ≠ []) (hNd : ∀ c ∈ dsN, c.isDigit = true)
    (hX : dsX ≠ []) (hXd : ∀ c ∈ dsX, c.isDigit = true)
    (hN1 : 1 ≤ natOfDigits dsN) (hN2 : natOfDigits dsN ≤ 1000)
    (hX1 : 1 ≤ natOfDigits dsX) (hX2 : natOfDigits dsX ≤ 10000)
    (hprod : natOfDigits dsN * natOfDigits dsX ≤ 1000000) :
    parse (String.mk (dsN ++ 'd' :: (dsX ++ ['k', '0']))) rng =
        .error "Parse error: Missing number after 'k'" ∧
      parse (String.mk (dsN ++ 'd' :: (dsX ++ ['d', '0']))) rng =
        .error "Parse error: Missing number after 'd'" ∧
      parse (String.mk (dsN ++ 'd' :: (dsX ++ ['r', '0']))) rng =
        .error "Parse error: Missing number after 'r'" ∧
      parse (String.mk (dsN ++ 'd' :: (dsX ++ ['e', '0']))) rng =
        parse (String.mk (dsN ++ 'd' :: (dsX ++ ['!']))) rng ∧
      ∃ r, parse (String.mk (dsN ++ 'd' :: (dsX ++ ['e', '0']))) rng = .ok r := by
  have hvN : natOfDigits dsN ≤ MAX_NUMBER := by unfold MAX_NUMBER; omega
  have hvX : natOfDigits dsX ≤ MAX_NUMBER := by unfold MAX_NUMBER; omega
  refine ⟨?_, ?_, ?_, ?_, ?_⟩
  · exact parse_dice_term_err rng hN hNd hX hXd
      (by intro c hc; injection hc with h1; rw [← h1]; decide)
      (by decide) hvN hvX hX1 rfl
  · exact parse_dice_term_err rng hN hNd hX hXd
      (by intro c hc; injection hc with h1; rw [← h1]; decide)
      (by decide) hvN hvX hX1 rfl
  · exact parse_dice_term_err rng hN hNd hX hXd
      (by intro c hc; injection hc with h1; rw [← h1]; decide)
      (by decide) hvN hvX hX1 rfl
  · rw [parse_dice_term_ok rng dsN dsX ['e', '0']
        { explode := true, explodeOn := some 0 } hN hNd hX hXd
        (by intro c hc; injection hc with h1; rw [← h1]; decide)
        (by decide) hN1 hN2 hX1 hX2 hprod rfl,
      parse_dice_term_ok rng dsN dsX ['!'] { explode := true }
        hN hNd hX hXd
        (by intro c hc; injection hc with h1; rw [← h1]; decide)
        (by decide) hN1 hN2 hX1 hX2 hprod rfl]
    rw [rollAllDice_explodeOn_zero rng (natOfDigits dsX)]
    rfl
  · exact ⟨_, parse_dice_term_ok rng dsN dsX ['e', '0']
      { explode := true, explodeOn := some 0 } hN hNd hX hXd
      (by intro c hc; injection hc with h1; rw [← h1]; decide)
      (by decide) hN1 hN2 hX1 hX2 hprod rfl⟩

/-- Witness for C9 at `2d6k0`, `2d6d0`, `2d6r0`, `2d6e0` and `2d6!`. -/
theorem claimC9_witness :
    parse (String.mk (['2'] ++ 'd' :: (['6'] ++ ['k', '0']))) (fun _ => 0) =
        .error "Parse error: Missing number after 'k'" ∧
      parse (String.mk (['2'] ++ 'd' :: (['6'] ++ ['d', '0']))) (fun _ => 0) =
        .error "Parse error: Missing number after 'd'" ∧
      parse (String.mk (['2'] ++ 'd' :: (['6'] ++ ['r', '0']))) (fun _ => 0) =
        .error "Parse error: Missing number after 'r'" ∧
      parse (String.mk (['2'] ++ 'd' :: (['6'] ++ ['e', '0']))) (fun _ => 0) =
        parse (String.mk (['2'] ++ 'd' :: (['6'] ++ ['!']))) (fun _ => 0) ∧
      ∃ r, parse (String.mk (['2'] ++ 'd' :: (['6'] ++ ['e', '0']))) (fun _ => 0) =
        .ok r :=
  claimC9 ['2'] ['6'] (fun _ => 0) (by decide) (by decide) (by decide) (by decide)
    (by decide) (by decide) (by decide) (by decide) (by decide)

end DiceParser
